import Mathlib

/-!
Shallow embedding of the component registry and installation manager of
nf-core/tools (files `nf_core/modules/modules_repo.py` and
`nf_core/components/components_command.py`).

Python string operations are embedded as structurally recursive functions
on `List Char` (so concrete instances evaluate inside the kernel); Python
exceptions are modelled by an explicit error type; filesystem and network
side effects are modelled by explicit effect lists and oracle records
describing the outcome of each external call.
-/

namespace NfCoreSpec

/-! ### Python string primitives -/

/-- Fuel-driven core of Python `str.split(sep)` for a non-empty separator:
non-overlapping occurrences, scanned left to right.  The fuel is an upper
bound on the length of the list, so the recursion is structural. -/
def splitSepAux (sep : List Char) : Nat → List Char → List (List Char)
  | _, [] => [[]]
  | 0, l => [l]
  | fuel + 1, c :: rest =>
    if sep.isPrefixOf (c :: rest) then
      [] :: splitSepAux sep fuel ((c :: rest).drop sep.length)
    else
      match splitSepAux sep fuel rest with
      | [] => [[c]]
      | h :: t => (c :: h) :: t

/-- Python `s.split(sep)` (non-empty `sep`). -/
def pySplit (s sep : String) : List String :=
  (splitSepAux sep.data s.data.length s.data).map String.mk

/-- Fuel-driven core of Python `str.replace(old, new)` for non-empty
`old`: every non-overlapping occurrence is replaced, left to right. -/
def replaceSepAux (old new : List Char) : Nat → List Char → List Char
  | _, [] => []
  | 0, l => l
  | fuel + 1, c :: rest =>
    if old.isPrefixOf (c :: rest) then
      new ++ replaceSepAux old new fuel ((c :: rest).drop old.length)
    else
      c :: replaceSepAux old new fuel rest

/-- Python `s.replace(old, new)` (non-empty `old`). -/
def pyReplace (s old new : String) : String :=
  String.mk (replaceSepAux old.data new.data s.data.length s.data)

/-- Python `sub in s` substring containment. -/
def containsSub (sub : List Char) : List Char → Bool
  | [] => sub.isEmpty
  | c :: rest => sub.isPrefixOf (c :: rest) || containsSub sub rest

/-- Python `s.startswith(pre)`. -/
def pyStartsWith (s pre : String) : Bool :=
  pre.data.isPrefixOf s.data

/-- Python `s.endswith(suf)`. -/
def pyEndsWith (s suf : String) : Bool :=
  suf.data.isSuffixOf s.data

/-- Python `sub in s` on strings. -/
def pyContains (s sub : String) : Bool :=
  containsSub sub.data s.data

/-! ### URL resolution (`ModulesRepo.__init__`, lines 29–46) -/

/-- The Python exceptions that can escape the embedded operations, plus the
dedicated `refreshFailed` error that the specification demands for a failed
pull (the source never raises it; it is present so the contract can be
stated and compared). -/
inductive PyErr where
  | indexError
  | valueError
  | attributeError
  | stopIteration
  | lookupErr (msg : String)
  | exceptionRaised (msg : String)
  | gitCommandError
  | refreshFailed
deriving DecidableEq, Repr

/-- Characters `urllib.parse` accepts inside a URL scheme:
letters, digits, plus, minus and dot. -/
def schemeChar (c : Char) : Bool :=
  c.isAlpha || c.isDigit || c == '+' || c == '-' || c == '.'

/-- Index of the last occurrence of `c` in `l` (Python `str.rfind`,
returning `none` instead of `-1`). -/
def rfindIdx (c : Char) (l : List Char) : Option Nat :=
  match l.reverse.findIdx? (fun x => x == c) with
  | none => none
  | some i => some (l.length - 1 - i)

/-- `urllib.parse.urlsplit` scheme removal: if the text before the first
colon is non-empty and made of scheme characters, drop it and the colon. -/
def stripScheme (l : List Char) : List Char :=
  let pre := l.takeWhile (fun c => c != ':')
  if pre.isEmpty || pre.length == l.length then l
  else if pre.all schemeChar then l.drop (pre.length + 1)
  else l

/-- `urllib.parse.urlsplit` netloc removal: after a leading `//`, the
authority extends to the next `/`, `?` or `#`. -/
def dropNetloc (l : List Char) : List Char :=
  match l with
  | '/' :: '/' :: rest =>
      let netloc := rest.takeWhile (fun c => c != '/' && c != '?' && c != '#')
      rest.drop netloc.length
  | _ => l

/-- `urllib.parse` parameter removal: drop a `;suffix` of the last path
segment (searched from the last `/`, or from the start when there is none). -/
def splitParams (l : List Char) : List Char :=
  let start : Nat := match rfindIdx '/' l with | none => 0 | some i => i
  match (l.drop start).findIdx? (fun c => c == ';') with
  | none => l
  | some j => l.take (start + j)

/-- The `.path` field of `urllib.parse.urlparse`: scheme, authority,
fragment, query and parameters removed. -/
def urlparsePath (s : String) : String :=
  let l := stripScheme s.data
  let l := dropNetloc l
  let l := l.takeWhile (fun c => c != '#')
  let l := l.takeWhile (fun c => c != '?')
  String.mk (splitParams l)

/-- `os.path.splitext(p)[0]`: the extension starts at the last dot of the
final path segment, provided a non-dot character of that segment precedes
it (so leading dots of a basename are not an extension). -/
def splitextRootList (l : List Char) : List Char :=
  match rfindIdx '.' l with
  | none => l
  | some dotIndex =>
    let fnameIndex : Nat := match rfindIdx '/' l with | none => 0 | some i => i + 1
    if fnameIndex ≤ dotIndex then
      if ((l.take dotIndex).drop fnameIndex).any (fun c => c != '.') then l.take dotIndex
      else l
    else l

/-- String form of `os.path.splitext(p)[0]`. -/
def splitextRoot (s : String) : String :=
  String.mk (splitextRootList s.data)

/-- Lines 29–36 of `ModulesRepo.__init__`: `remote_url.split("@")[1]` (an
`IndexError` when there is no second piece), then `urlparse(...).path`,
then `os.path.splitext(path)[0]`. -/
def resolveFullname (remote_url : String) : Except PyErr String :=
  match (pySplit remote_url "@")[1]? with
  | none => .error .indexError
  | some p => .ok (splitextRoot (urlparsePath p))

/-- Line 46 of `ModulesRepo.__init__`:
`self.owner, self.name = self.fullname.split("/")` — a `ValueError` unless
the split has exactly two pieces. -/
def splitOwnerName (fullname : String) : Except PyErr (String × String) :=
  match pySplit fullname "/" with
  | [owner, name] => .ok (owner, name)
  | _ => .error .valueError

/-- The owner/name identity derived from a remote URL by
`ModulesRepo.__init__` (lines 29–36 and 46). -/
def resolveIdentity (remote_url : String) : Except PyErr (String × String) :=
  match resolveFullname remote_url with
  | .error e => .error e
  | .ok fullname => splitOwnerName fullname

/-! ### Git and filesystem oracle for `ModulesRepo` -/

/-- Outcomes of the external git and filesystem calls that
`ModulesRepo.__init__` and `ModulesRepo.setup_local_repo` perform. -/
structure GitWorld where
  /-- The name of the ref that `origin/HEAD` points to (for example
  `origin/main`), `none` when no such ref exists. -/
  originHeadTarget : Option String
  /-- Whether the per-owner directory under the cache root already exists. -/
  ownerDirExists : Bool
  /-- Whether the local clone directory for this repo already exists. -/
  localDirExists : Bool
  /-- Whether `git.Repo.clone_from` succeeds. -/
  cloneOk : Bool
  /-- Whether `repo.remotes.origin.pull()` succeeds. -/
  pullOk : Bool
  /-- Whether `repo.git.checkout(self.branch)` succeeds. -/
  checkoutOk : Bool
  /-- `os.listdir(self.local_dir)` on the checked-out tree. -/
  dirNames : List String
deriving DecidableEq, Repr

/-- Filesystem actions performed by `setup_local_repo`.  `deleteDir` is
never emitted by the source; it is in the type so that "the existing cache
is not deleted" is a statement about the effect trace. -/
inductive FsEffect where
  | mkdirOwner
  | cloneRepo
  | pullOrigin
  | deleteDir
deriving DecidableEq, Repr

/-- `ModulesRepo.setup_local_repo` (lines 59–84): create the owner
directory when missing; clone when the local directory is absent (an
`Exception` when no remote is given, a `LookupError` when the clone
fails); otherwise open the existing clone and pull — a failing pull
propagates the raw `git.exc.GitCommandError`, uncaught. -/
def setup_local_repo (remote : Option String) (w : GitWorld) :
    List FsEffect × Except PyErr Unit :=
  let e0 : List FsEffect := if w.ownerDirExists then [] else [.mkdirOwner]
  if w.localDirExists then
    (e0 ++ [.pullOrigin], if w.pullOk then .ok () else .error .gitCommandError)
  else
    match remote with
    | none => (e0, .error (.exceptionRaised "repo has not been previously used and no remote link"))
    | some r =>
      (e0 ++ [.cloneRepo],
        if w.cloneOk then .ok () else .error (.lookupErr ("Failed to clone from the remote: " ++ r)))

/-- `ModulesRepo.get_default_branch` (lines 86–91).  It reads `self.repo`
(an `AttributeError` when that attribute has not been set yet), looks for
the `origin/HEAD` ref (`StopIteration` when absent), splits the target ref
name on `/` into exactly two pieces and assigns the second to
`self.branch` — and returns `None`, since the Python function has no
return statement.  The result pairs the assigned branch with the returned
value. -/
def getDefaultBranch (repo : Option Unit) (w : GitWorld) :
    Except PyErr (Option String × Option String) :=
  match repo with
  | none => .error .attributeError
  | some _ =>
    match w.originHeadTarget with
    | none => .error .stopIteration
    | some refName =>
      match pySplit refName "/" with
      | [_, b] => .ok (some b, none)
      | _ => .error .valueError

/-- Python truthiness of the `self.branch` field: `None` and the empty
string are falsy, any other string is truthy. -/
def branchTruthy : Option String → Bool
  | none => false
  | some s => !(s == "")

/-- The fields of a constructed `ModulesRepo` that the claims are about. -/
structure RepoState where
  fullname : String
  owner : String
  name : String
  branch : Option String
  /-- Whether line 54 (`self.verify_branch()`) was executed. -/
  verifyPerformed : Bool
deriving DecidableEq, Repr

/-- Lines 37–44 of `ModulesRepo.__init__`: keep a given branch; for
`nf-core/modules` default to `master`; otherwise assign the *return
value* of `get_default_branch`, which is called while `self.repo` is
still unset. -/
def resolveBranch (fullname : String) (branch0 : Option String) (w : GitWorld) :
    Except PyErr (Option String) :=
  match branch0 with
  | some b => .ok (some b)
  | none =>
    if fullname == "nf-core/modules" then .ok (some "master")
    else
      match getDefaultBranch none w with
      | .error e => .error e
      | .ok (_, ret) => .ok ret

/-- `ModulesRepo.__init__` (lines 20–54).  The steps in source order:
`None` remote check; fullname extraction; branch resolution; owner/name
split; `setup_local_repo`; `branch_exists` (a checkout, `LookupError` on
failure); and the layout verification guarded by
`self.fullname != "nf-core/modules" or self.branch` (a `LookupError` when
`modules` is not in the listing). -/
def modulesRepoInit (remote_url : Option String) (branch0 : Option String) (w : GitWorld) :
    Except PyErr RepoState :=
  match remote_url with
  | none => .error (.lookupErr "You have to provide a remote URL when working with a private repository")
  | some url =>
    match resolveFullname url with
    | .error e => .error e
    | .ok fullname =>
      match resolveBranch fullname branch0 w with
      | .error e => .error e
      | .ok branch1 =>
        match splitOwnerName fullname with
        | .error e => .error e
        | .ok (owner, name) =>
          match (setup_local_repo (some url) w).2 with
          | .error e => .error e
          | .ok _ =>
            if w.checkoutOk then
              if !(fullname == "nf-core/modules") || branchTruthy branch1 then
                if w.dirNames.contains "modules" then
                  .ok ⟨fullname, owner, name, branch1, true⟩
                else
                  .error (.lookupErr "does not contain a modules directory")
              else
                .ok ⟨fullname, owner, name, branch1, false⟩
            else
              .error (.lookupErr "Branch not found")

/-! ### Remote file tree (`get_modules_file_tree`, lines 118–141) -/

/-- One entry of the recursive GitHub tree listing. -/
structure TreeEntry where
  path : String
  type : String
  url : String
deriving DecidableEq, Repr

/-- The filter of line 137: starts with `modules/`, ends with `/main.nf`,
and does not contain the substring `/test/`. -/
def isModuleMainPath (p : String) : Bool :=
  pyStartsWith p "modules/" && pyEndsWith p "/main.nf" && !(pyContains p "/test/")

/-- Line 139: `f["path"].replace("modules/", "").replace("/main.nf", "")`. -/
def moduleNameOfPath (p : String) : String :=
  pyReplace (pyReplace p "modules/" "") "/main.nf" ""

/-- The `modules_avail_module_names` list built by lines 136–139. -/
def availModuleNames (tree : List TreeEntry) : List String :=
  tree.filterMap (fun f => if isModuleMainPath f.path then some (moduleNameOfPath f.path) else none)

/-- Lines 135–141 of `get_modules_file_tree`: the available-name scan over
an already fetched tree, a `LookupError` when no module is found. -/
def get_modules_file_tree (tree : List TreeEntry) : Except PyErr (List String) :=
  let names := availModuleNames tree
  if names.isEmpty then .error (.lookupErr "Found no modules") else .ok names

/-! ### File download (`download_gh_file`, lines 178–203) -/

/-- Outcomes of the external calls made by `download_gh_file`. -/
structure DlWorld where
  /-- Whether `os.path.dirname(dl_filename)` already exists. -/
  dirExists : Bool
  /-- The HTTP status code of the GitHub API response. -/
  status : Nat
  /-- The base64-decoded body bytes of the response. -/
  content : List Nat
deriving DecidableEq, Repr

/-- Filesystem actions performed by `download_gh_file`. -/
inductive DlEffect where
  | makedirs
  | writeFile (content : List Nat)
deriving DecidableEq, Repr

/-- `ModulesRepo.download_gh_file`: create the missing parent directory,
call the API, raise a `LookupError` on a non-200 status, and only on a 200
response decode and write the destination file. -/
def download_gh_file (w : DlWorld) : List DlEffect × Except PyErr Unit :=
  let e0 : List DlEffect := if w.dirExists then [] else [.makedirs]
  if w.status == 200 then
    (e0 ++ [.writeFile w.content], .ok ())
  else
    (e0, .error (.lookupErr "Could not fetch file"))

/-! ### Component removal (`clear_module_dir`, lines 70–87) -/

/-- Filesystem actions performed by `clear_module_dir`. -/
inductive RmEffect where
  | rmtreeModuleDir
  | rmdirParentDir
deriving DecidableEq, Repr

/-- `ComponentCommand.clear_module_dir`: `shutil.rmtree` on the module
directory (an `OSError`, caught by the outer handler, yields `False`);
when the module name contains a `/`, a best-effort `os.rmdir` of the
parent whose `OSError` is swallowed by the inner handler; then `True`.
The outcome of the parent removal (`rmdirOk`) never reaches the result. -/
def clear_module_dir (module_name : String) (rmtreeOk _rmdirOk : Bool) :
    Bool × List RmEffect :=
  if rmtreeOk then
    if pyContains module_name "/" then
      (true, [.rmtreeModuleDir, .rmdirParentDir])
    else
      (true, [.rmtreeModuleDir])
  else
    (false, [.rmtreeModuleDir])

/-! ### Structure migration (`check_modules_structure`, lines 144–179) -/

/-- One directory visited by `os.walk(Path(self.dir, "modules"))`:
its path relative to the walk root, as segments, and whether `main.nf`
is among its files. -/
structure WalkEntry where
  parts : List String
  hasMain : Bool
deriving DecidableEq, Repr

/-- Lines 154–160: collect every `main.nf`-containing directory whose
`parts[1]` equals `"modules"`; indexing `parts[1]` on a shorter tuple is
an `IndexError`. -/
def legacyScan : List WalkEntry → Except PyErr (List (List String))
  | [] => .ok []
  | e :: rest =>
    if e.hasMain then
      match e.parts[1]? with
      | none => .error .indexError
      | some seg =>
        if seg == "modules" then
          match legacyScan rest with
          | .error err => .error err
          | .ok l => .ok (e.parts :: l)
        else
          legacyScan rest
    else
      legacyScan rest

/-- The observable outcome of `check_modules_structure`: the performed
moves (source, destination — absolute paths as segment lists), whether the
local repository cache was refreshed (`setup_local_repo`, line 166), the
directory removed by the final `shutil.rmtree` (line 176), and whether
`modules_json.check_up_to_date()` rewrote the manifest (line 179). -/
structure MigrationResult where
  moves : List (List String × List String)
  refreshedRepo : Bool
  removedLegacyDir : Option (List String)
  manifestChecked : Bool
deriving DecidableEq, Repr

/-- `ComponentCommand.check_modules_structure`.  `projectDir` is
`self.dir`, `cwd` the process working directory (`Path("modules").resolve()`
prefixes it, line 171), `repoPath` the repository path segment of
`self.modules_repo`, and `entries` the walk of `Path(self.dir, "modules")`.
Moves use `modules_dir = Path("modules").resolve()` — that is, `cwd` — for
both source and destination, while the final legacy-directory removal uses
`Path(self.dir, "modules", repo_path, "modules")`. -/
def check_modules_structure (repoType : String) (projectDir cwd : List String)
    (repoPath : String) (entries : List WalkEntry) : Except PyErr MigrationResult :=
  if repoType == "pipeline" then
    match legacyScan entries with
    | .error e => .error e
    | .ok wrong =>
      if wrong.isEmpty then
        .ok ⟨[], false, none, false⟩
      else
        .ok ⟨wrong.map (fun m =>
               (cwd ++ ["modules"] ++ m, cwd ++ ["modules", repoPath] ++ m.drop 2)),
             true,
             some (projectDir ++ ["modules", repoPath, "modules"]),
             true⟩
  else
    .ok ⟨[], false, none, false⟩

/-- Whether some tree entry passes the module filter of line 137 and
yields the name `n` — the computational form of "the name corresponds to
at least one path ending in the canonical entry file". -/
def nameBacked (tree : List TreeEntry) (n : String) : Bool :=
  tree.any (fun f => isModuleMainPath f.path && (moduleNameOfPath f.path == n))

/-! ### Concrete fixtures -/

/-- A git world in which every external call succeeds, the local clone is
absent (first use), `origin/HEAD` points at `origin/main`, and the
checked-out tree has a `modules/` directory. -/
def wDefault : GitWorld :=
  ⟨some "origin/main", true, false, true, true, true, ["modules"]⟩

/-- A git world in which the local clone already exists and the pull from
origin fails. -/
def wPullFail : GitWorld :=
  ⟨some "origin/main", true, true, true, false, true, ["modules"]⟩

/-- The remote tree of the specification scenario: a module with a
`tests/` subdirectory (plural). -/
def treeFastqcTests : List TreeEntry :=
  [⟨"modules/fastqc/main.nf", "blob", "u1"⟩,
   ⟨"modules/fastqc/meta.yml", "blob", "u2"⟩,
   ⟨"modules/fastqc/tests/main.nf", "blob", "u3"⟩]

/-- The same tree with the test directory spelled `test/` (singular), the
segment the source actually filters. -/
def treeFastqcTest : List TreeEntry :=
  [⟨"modules/fastqc/main.nf", "blob", "u1"⟩,
   ⟨"modules/fastqc/meta.yml", "blob", "u2"⟩,
   ⟨"modules/fastqc/test/main.nf", "blob", "u3"⟩]

/-! ### Theorems -/

/-- C1: the standard HTTPS form of a remote URL does not resolve at all —
`remote_url.split("@")[1]` raises an `IndexError` whenever the URL has no
`@`, so only SSH-style `user@host:path` URLs reach the owner/name split,
contradicting the code's own comment that the leading `git@` is removed
"if it is present". -/
theorem https_url_resolution_crashes :
    resolveIdentity "https://github.com/nf-core/modules.git" = .error .indexError ∧
    resolveIdentity "git@github.com:nf-core/modules.git" = .ok ("nf-core", "modules") :=
  ⟨rfl, rfl⟩

/-- C2 counterexample: on the specification's scenario tree the listing
returns `["fastqc", "fastqc/tests"]`, not `{"fastqc"}` — the source only
filters the substring `/test/`, which does not occur in
`modules/fastqc/tests/main.nf`, and the second returned name carries the
test-directory segment `tests`. -/
theorem listing_returns_tests_directory_name :
    get_modules_file_tree treeFastqcTests = .ok ["fastqc", "fastqc/tests"] ∧
    pySplit "fastqc/tests" "/" = ["fastqc", "tests"] :=
  ⟨rfl, rfl⟩

/-- C2 amended: the test-directory segment the source excludes is the
literal `test` — with the scenario tree spelled `modules/fastqc/test/main.nf`
the listing returns exactly `["fastqc"]`; and in general every returned
name arises from a tree path that starts with `modules/`, ends with
`/main.nf` and does not contain `/test/`. -/
theorem listing_excludes_literal_test_dir :
    get_modules_file_tree treeFastqcTest = .ok ["fastqc"] ∧
    ∀ (tree : List TreeEntry) (n : String), n ∈ availModuleNames tree →
      nameBacked tree n = true := by
  refine ⟨rfl, fun tree n hn => ?_⟩
  unfold availModuleNames at hn
  rw [List.mem_filterMap] at hn
  obtain ⟨f, hf, hif⟩ := hn
  by_cases hi : isModuleMainPath f.path = true
  · rw [if_pos hi] at hif
    exact List.any_eq_true.mpr ⟨f, hf, by rw [hi, Option.some.inj hif]; simp⟩
  · rw [if_neg hi] at hif
    exact absurd hif (by simp)

/-- C2 amended, witness: `fastqc` is returned on the singular-`test` tree
and is backed by a `main.nf` path there. -/
theorem listing_excludes_literal_test_dir_witness :
    "fastqc" ∈ availModuleNames treeFastqcTest ∧
    nameBacked treeFastqcTest "fastqc" = true :=
  ⟨by decide, listing_excludes_literal_test_dir.2 treeFastqcTest "fastqc" (by decide)⟩

/-- C3: constructing a `ModulesRepo` for a repository other than
`nf-core/modules` without a branch crashes with an `AttributeError`:
line 44 calls `get_default_branch` before `self.repo` is assigned (line
47); and even with a repository at hand, `get_default_branch` returns
`None` (it has no return statement), so the assignment
`self.branch = self.get_default_branch()` would leave the branch `None`
rather than the default-branch name it computed into `self.branch`. -/
theorem default_branch_resolution_crashes :
    modulesRepoInit (some "git@github.com:foo/bar.git") none wDefault = .error .attributeError ∧
    getDefaultBranch (some ()) wDefault = .ok (some "main", none) :=
  ⟨rfl, rfl⟩

/-- C4 counterexample: for the well-known default repository at its
default branch — `nf-core/modules` with no branch given, hence branch
`master` — the layout verification is *performed*, because the guard
`self.fullname != "nf-core/modules" or self.branch` is true for any
non-empty branch string; the claim requires it to be skipped exactly
there. -/
theorem verify_performed_for_default_repo_default_branch :
    modulesRepoInit (some "git@github.com:nf-core/modules.git") none wDefault =
      .ok ⟨"nf-core/modules", "nf-core", "modules", some "master", true⟩ :=
  rfl

/-- Helper for C4: a successfully constructed state records exactly the
guard of line 53 in its `verifyPerformed` field. -/
theorem verifyPerformed_eq_guard :
    ∀ (url : String) (branch0 : Option String) (w : GitWorld) (s : RepoState),
      modulesRepoInit (some url) branch0 w = .ok s →
      s.verifyPerformed = (!(s.fullname == "nf-core/modules") || branchTruthy s.branch) := by
  intro url branch0 w s h
  unfold modulesRepoInit at h
  repeat' split at h
  all_goals cases h
  all_goals simp_all

/-- C4 amended: the layout verification is skipped iff the repository is
`nf-core/modules` *and* the branch field is falsy (`None` or the empty
string); for every other combination — including the default repository at
its default branch `master` — it is performed. -/
theorem verify_skipped_iff_default_repo_falsy_branch :
    ∀ (url : String) (branch0 : Option String) (w : GitWorld) (s : RepoState),
      modulesRepoInit (some url) branch0 w = .ok s →
      (s.verifyPerformed = false ↔
        (s.fullname = "nf-core/modules" ∧ branchTruthy s.branch = false)) := by
  intro url branch0 w s h
  rw [verifyPerformed_eq_guard url branch0 w s h]
  constructor
  · intro hv
    obtain ⟨h1, h2⟩ := Bool.or_eq_false_iff.mp hv
    refine ⟨?_, h2⟩
    cases hbeq : (s.fullname == "nf-core/modules") with
    | true => exact beq_iff_eq.mp hbeq
    | false => rw [hbeq] at h1; exact absurd h1 (by decide)
  · rintro ⟨hfn, hbt⟩
    apply Bool.or_eq_false_iff.mpr
    have : (s.fullname == "nf-core/modules") = true := beq_iff_eq.mpr hfn
    rw [this, hbt]
    exact ⟨rfl, rfl⟩

/-- C4 amended, witness: passing the empty branch string for the default
repository skips the verification. -/
theorem verify_skipped_iff_default_repo_falsy_branch_witness :
    modulesRepoInit (some "git@github.com:nf-core/modules.git") (some "") wDefault =
      .ok ⟨"nf-core/modules", "nf-core", "modules", some "", false⟩ ∧
    (false = false ↔ ("nf-core/modules" = "nf-core/modules" ∧ branchTruthy (some "") = false)) :=
  ⟨rfl, verify_skipped_iff_default_repo_falsy_branch
    "git@github.com:nf-core/modules.git" (some "") wDefault
    ⟨"nf-core/modules", "nf-core", "modules", some "", false⟩ rfl⟩

/-- C5 counterexample: when the pull of an existing cache fails, the error
surfacing from `setup_local_repo` is the propagated raw
`git.exc.GitCommandError`, not a dedicated typed refresh error — the
pull call sits in no `try` block. -/
theorem pull_failure_is_untyped :
    (setup_local_repo (some "git@github.com:nf-core/modules.git") wPullFail).2 =
      .error .gitCommandError ∧
    PyErr.gitCommandError ≠ PyErr.refreshFailed :=
  ⟨rfl, by decide⟩

/-- C5 amended: for an existing cache directory, `setup_local_repo`
pulls from origin; a pull failure propagates the raw git error while the
cache is left intact — no delete and no re-clone appears in the effect
trace — and a successful pull returns the opened clone. -/
theorem pull_failure_propagates_git_error_cache_intact :
    ∀ (remote : Option String) (w : GitWorld), w.localDirExists = true →
      (FsEffect.pullOrigin ∈ (setup_local_repo remote w).1 ∧
       FsEffect.cloneRepo ∉ (setup_local_repo remote w).1 ∧
       FsEffect.deleteDir ∉ (setup_local_repo remote w).1) ∧
      (w.pullOk = false → (setup_local_repo remote w).2 = .error .gitCommandError) ∧
      (w.pullOk = true → (setup_local_repo remote w).2 = .ok ()) := by
  intro remote w h
  obtain ⟨oht, od, ld, co, po, ch, dn⟩ := w
  cases ld with
  | false => exact absurd h (by simp)
  | true =>
    cases od <;> cases po <;>
      simp [setup_local_repo, List.mem_cons, List.mem_singleton]

/-- C5 amended, witness: the failing-pull world. -/
theorem pull_failure_propagates_git_error_cache_intact_witness :
    FsEffect.pullOrigin ∈ (setup_local_repo (some "u") wPullFail).1 ∧
    (setup_local_repo (some "u") wPullFail).2 = .error .gitCommandError :=
  ⟨(pull_failure_propagates_git_error_cache_intact (some "u") wPullFail rfl).1.1,
   (pull_failure_propagates_git_error_cache_intact (some "u") wPullFail rfl).2.1 rfl⟩

/-- C7: `download_gh_file` creates the missing parent directory, raises a
`LookupError` on any non-200 response, and in that case writes nothing at
all — no `writeFile` effect of any content, in particular no empty file. -/
theorem download_failure_writes_nothing :
    ∀ w : DlWorld,
      ((DlEffect.makedirs ∈ (download_gh_file w).1) ↔ w.dirExists = false) ∧
      (¬ w.status = 200 →
        (download_gh_file w).2 = .error (.lookupErr "Could not fetch file") ∧
        ∀ c, DlEffect.writeFile c ∉ (download_gh_file w).1) := by
  intro w
  obtain ⟨de, st, ct⟩ := w
  by_cases hs : st = 200 <;> cases de <;>
    simp [download_gh_file, hs, List.mem_cons, List.mem_singleton]

/-- C7 witness: a 404 response with a missing parent directory. -/
theorem download_failure_writes_nothing_witness :
    DlEffect.makedirs ∈ (download_gh_file ⟨false, 404, []⟩).1 ∧
    (download_gh_file ⟨false, 404, []⟩).2 = .error (.lookupErr "Could not fetch file") :=
  ⟨(download_failure_writes_nothing ⟨false, 404, []⟩).1.mpr rfl,
   ((download_failure_writes_nothing ⟨false, 404, []⟩).2 (by decide)).1⟩

/-- C8: `clear_module_dir` removes the module tree and reports success
whenever the tree removal succeeds; the orphan-parent `rmdir` is attempted
exactly when the module name contains a `/`, and its outcome never
changes the result — parent-removal failure is non-fatal. -/
theorem clear_module_dir_parent_best_effort :
    ∀ (name : String) (rmtreeOk rmdirOk : Bool),
      (rmtreeOk = true → (clear_module_dir name rmtreeOk rmdirOk).1 = true) ∧
      RmEffect.rmtreeModuleDir ∈ (clear_module_dir name rmtreeOk rmdirOk).2 ∧
      (rmtreeOk = true →
        ((RmEffect.rmdirParentDir ∈ (clear_module_dir name rmtreeOk rmdirOk).2) ↔
          pyContains name "/" = true)) ∧
      clear_module_dir name rmtreeOk rmdirOk = clear_module_dir name rmtreeOk (!rmdirOk) := by
  intro name rmtreeOk rmdirOk
  cases rmtreeOk <;> by_cases hc : pyContains name "/" = true <;>
    simp [clear_module_dir, hc, List.mem_cons, List.mem_singleton]

/-- C8 witness: removing a tool/subtool module with a failing parent
`rmdir` still succeeds and did attempt the parent removal. -/
theorem clear_module_dir_parent_best_effort_witness :
    (clear_module_dir "samtools/sort" true false).1 = true ∧
    RmEffect.rmdirParentDir ∈ (clear_module_dir "samtools/sort" true false).2 :=
  ⟨(clear_module_dir_parent_best_effort "samtools/sort" true false).1 rfl,
   ((clear_module_dir_parent_best_effort "samtools/sort" true false).2.2.1 rfl).mpr (by decide)⟩

/-- Helper for C6: the legacy scan finds nothing when every
`main.nf`-containing directory sits at depth at least two with a second
segment other than `modules`. -/
theorem legacyScan_eq_nil :
    ∀ entries : List WalkEntry,
      (∀ e ∈ entries, e.hasMain = true →
        2 ≤ e.parts.length ∧ e.parts[1]? ≠ some "modules") →
      legacyScan entries = .ok [] := by
  intro entries h
  induction entries with
  | nil => rfl
  | cons e rest ih =>
    have hrest : legacyScan rest = .ok [] :=
      ih (fun x hx hm => h x (List.mem_cons_of_mem e hx) hm)
    unfold legacyScan
    cases hm : e.hasMain with
    | false => simpa using hrest
    | true =>
      have he := h e (List.mem_cons_self e rest) hm
      cases hp : e.parts[1]? with
      | none =>
        have : e.parts.length ≤ 1 := by
          simpa using List.getElem?_eq_none_iff.mp hp
        omega
      | some seg =>
        have hseg : (seg == "modules") = false := by
          cases hb : (seg == "modules") with
          | false => rfl
          | true =>
            exact absurd (by rw [beq_iff_eq.mp hb] at hp; exact hp) (by simp [he.2])
        simp only [hp, hseg]
        simpa using hrest

/-- Helper for C10: the legacy scan raises `IndexError` as soon as some
`main.nf`-containing directory has fewer than two path segments. -/
theorem legacyScan_eq_indexError :
    ∀ entries : List WalkEntry,
      (∃ e ∈ entries, e.hasMain = true ∧ e.parts.length ≤ 1) →
      legacyScan entries = .error .indexError := by
  intro entries h
  induction entries with
  | nil => obtain ⟨e, he, _⟩ := h; exact absurd he (List.not_mem_nil e)
  | cons e rest ih =>
    obtain ⟨x, hx, hxm, hxl⟩ := h
    unfold legacyScan
    rcases List.mem_cons.mp hx with hxe | hxr
    · subst hxe
      have hp : x.parts[1]? = none :=
        List.getElem?_eq_none_iff.mpr (by omega)
      simp [hxm, hp]
    · have herr : legacyScan rest = .error .indexError := ih ⟨x, hxr, hxm, hxl⟩
      cases hm : e.hasMain with
      | false => simpa using herr
      | true =>
        cases hp : e.parts[1]? with
        | none => simp
        | some seg =>
          cases hs : (seg == "modules") with
          | false => simp only [hp, hs]; simpa using herr
          | true => simp only [hp, hs]; simp [herr]

/-- C6: on an already-migrated project — every `main.nf` directory lies at
`<namespace>/<tool>[/<subtool>]`, never with `modules` as its second
segment — the structure check performs no move, no repository-cache
refresh, no legacy-directory removal and no manifest write. -/
theorem migration_noop_when_no_legacy :
    ∀ (projectDir cwd : List String) (repoPath : String) (entries : List WalkEntry),
      (∀ e ∈ entries, e.hasMain = true →
        2 ≤ e.parts.length ∧ e.parts[1]? ≠ some "modules") →
      check_modules_structure "pipeline" projectDir cwd repoPath entries =
        .ok ⟨[], false, none, false⟩ := by
  intro projectDir cwd repoPath entries h
  unfold check_modules_structure
  rw [legacyScan_eq_nil entries h]
  rfl

/-- C6 witness: a correctly-laid-out walk with two modules. -/
theorem migration_noop_when_no_legacy_witness :
    check_modules_structure "pipeline" ["home", "proj"] ["home", "proj"] "nf-core"
      [⟨["nf-core", "fastqc"], true⟩, ⟨["nf-core", "samtools", "sort"], true⟩] =
      .ok ⟨[], false, none, false⟩ :=
  migration_noop_when_no_legacy ["home", "proj"] ["home", "proj"] "nf-core"
    [⟨["nf-core", "fastqc"], true⟩, ⟨["nf-core", "samtools", "sort"], true⟩] (by decide)

/-- C9: every move of the structure migration is anchored at
`cwd/modules` — `Path("modules").resolve()` — regardless of the configured
project directory: the computed moves are the same for any two project
directories, each source and destination extends `cwd ++ ["modules"]`,
the destination lies inside the project's modules tree when the working
directory *is* the project directory, and it can lie there only when one
of the two directories is a path prefix of the other. -/
theorem migration_moves_anchored_at_cwd :
    ∀ (projectDir projectDir2 cwd : List String) (repoPath : String)
      (entries : List WalkEntry),
      Except.map MigrationResult.moves
          (check_modules_structure "pipeline" projectDir cwd repoPath entries) =
        Except.map MigrationResult.moves
          (check_modules_structure "pipeline" projectDir2 cwd repoPath entries) ∧
      (∀ res, check_modules_structure "pipeline" projectDir cwd repoPath entries = .ok res →
        ∀ wd cd, (wd, cd) ∈ res.moves →
          ((cwd ++ ["modules"]) <+: wd ∧ (cwd ++ ["modules"]) <+: cd) ∧
          (cwd = projectDir → (projectDir ++ ["modules"]) <+: cd) ∧
          ((projectDir ++ ["modules"]) <+: cd →
            projectDir <+: cwd ∨ cwd <+: projectDir)) := by
  intro projectDir projectDir2 cwd repoPath entries
  constructor
  · unfold check_modules_structure
    cases hs : legacyScan entries with
    | error e => simp [hs]
    | ok wrong => cases hw : wrong.isEmpty <;> simp [hs, hw, Except.map]
  · intro res hres wd cd hmem
    have hshape : ∃ m : List String,
        wd = cwd ++ ["modules"] ++ m ∧ cd = cwd ++ ["modules", repoPath] ++ m.drop 2 := by
      unfold check_modules_structure at hres
      split at hres
      · split at hres
        · exact absurd hres (by simp)
        · split at hres
          · cases hres
            exact absurd hmem (by simp)
          · cases hres
            obtain ⟨m, hmmem, hmeq⟩ := List.mem_map.mp hmem
            injection hmeq with h1 h2
            exact ⟨m, h1.symm, h2.symm⟩
      · cases hres
        exact absurd hmem (by simp)
    obtain ⟨m, hwd, hcd⟩ := hshape
    have hcd2 : cd = (cwd ++ ["modules"]) ++ ([repoPath] ++ m.drop 2) := by
      rw [hcd]; simp
    refine ⟨⟨?_, ?_⟩, ?_, ?_⟩
    · rw [hwd]; exact (cwd ++ ["modules"]).prefix_append m
    · rw [hcd2]; exact (cwd ++ ["modules"]).prefix_append _
    · intro hcp
      rw [hcp] at hcd2
      rw [hcd2]
      exact (projectDir ++ ["modules"]).prefix_append _
    · intro hpd
      have hcwd : (cwd ++ ["modules"]) <+: cd := by
        rw [hcd2]; exact (cwd ++ ["modules"]).prefix_append _
      rcases List.prefix_or_prefix_of_prefix hpd hcwd with hle | hle
      · left
        have h1 : projectDir <+: cwd ++ ["modules"] :=
          (List.prefix_append projectDir ["modules"]).trans hle
        have h2 : cwd <+: cwd ++ ["modules"] := List.prefix_append cwd ["modules"]
        have hlen : projectDir.length ≤ cwd.length := by
          have := hle.length_le
          simp only [List.length_append, List.length_cons, List.length_nil] at this
          omega
        exact List.prefix_of_prefix_length_le h1 h2 hlen
      · right
        have h1 : cwd <+: projectDir ++ ["modules"] :=
          (List.prefix_append cwd ["modules"]).trans hle
        have h2 : projectDir <+: projectDir ++ ["modules"] :=
          List.prefix_append projectDir ["modules"]
        have hlen : cwd.length ≤ projectDir.length := by
          have := hle.length_le
          simp only [List.length_append, List.length_cons, List.length_nil] at this
          omega
        exact List.prefix_of_prefix_length_le h1 h2 hlen

/-- C9 witness: a legacy module `nf-core/modules/fastqc` migrated while
the working directory equals the project directory. -/
theorem migration_moves_anchored_at_cwd_witness :
    (["home", "proj"] ++ ["modules"]) <+:
      ["home", "proj", "modules", "nf-core", "modules", "fastqc"] ∧
    (["home", "proj"] ++ ["modules"]) <+:
      ["home", "proj", "modules", "nf-core", "fastqc"] :=
  ((migration_moves_anchored_at_cwd ["home", "proj"] ["elsewhere"] ["home", "proj"]
      "nf-core" [⟨["nf-core", "modules", "fastqc"], true⟩]).2
    ⟨[(["home", "proj", "modules", "nf-core", "modules", "fastqc"],
       ["home", "proj", "modules", "nf-core", "fastqc"])], true,
      some ["home", "proj", "modules", "nf-core", "modules"], true⟩ rfl
    ["home", "proj", "modules", "nf-core", "modules", "fastqc"]
    ["home", "proj", "modules", "nf-core", "fastqc"] (by decide)).1

/-- C10: a pipeline with a `main.nf` directly under a single-segment path
`modules/<name>/` makes the structure walk index `parts[1]` out of range:
the check aborts with the untyped `IndexError` instead of completing or
raising a typed error. -/
theorem single_segment_module_raises_index_error :
    ∀ (projectDir cwd : List String) (repoPath : String) (entries : List WalkEntry),
      (∃ e ∈ entries, e.hasMain = true ∧ e.parts.length = 1) →
      check_modules_structure "pipeline" projectDir cwd repoPath entries =
        .error .indexError := by
  intro projectDir cwd repoPath entries h
  obtain ⟨e, he, hm, hl⟩ := h
  unfold check_modules_structure
  rw [legacyScan_eq_indexError entries ⟨e, he, hm, by omega⟩]
  rfl

/-- C10 witness: the walk entry `modules/fastqc/main.nf`. -/
theorem single_segment_module_raises_index_error_witness :
    check_modules_structure "pipeline" ["home", "proj"] ["home", "proj"] "nf-core"
      [⟨["fastqc"], true⟩] = .error .indexError :=
  single_segment_module_raises_index_error ["home", "proj"] ["home", "proj"] "nf-core"
    [⟨["fastqc"], true⟩] ⟨⟨["fastqc"], true⟩, List.mem_singleton.mpr rfl, rfl, rfl⟩

end NfCoreSpec
